import Mathlib

/-!
Shallow embedding of the drawing routines in
`mmpose/core/visualization/image.py` (`imshow_bboxes`, `imshow_keypoints`,
`imshow_keypoints_3d`).

Pixel coordinates and confidence scores are modelled as rationals; Python's
`int()` truncation is `truncZ`; Python / numpy sequence indexing (including
negative indices and `IndexError`) is `pyGet`.  The external drawing
libraries (cv2, matplotlib) are treated as black-box sinks: the functions are
modelled as producing the list of drawing commands they would issue,
together with the Python exceptions (`assert`, `IndexError`,
`ZeroDivisionError`) that the control flow can raise, via `Except`.
-/

namespace MMPose

/-- Python runtime errors that the modelled control flow can raise. -/
inductive PyErr where
  | assertionError
  | indexError
  | zeroDivisionError
  | valueError
deriving DecidableEq

/-- A BGR color triple, as stored in `pose_kpt_color` / `pose_limb_color`. -/
structure Color where
  r : ℤ
  g : ℤ
  b : ℤ
deriving DecidableEq

/-- One 2D keypoint row `[x, y, score]` of a pose array. -/
structure Kpt2D where
  x : ℚ
  y : ℚ
  score : ℚ
deriving DecidableEq

/-- Python `int()` applied to a rational: truncation toward zero. -/
def truncZ (q : ℚ) : ℤ :=
  Int.tdiv q.num (q.den : ℤ)

/-- Python / numpy sequence indexing: non-negative indices from the front,
negative indices from the back, out-of-range gives `none` (`IndexError`). -/
def pyGet {α : Type} (l : List α) (i : ℤ) : Option α :=
  if 0 ≤ i then l.get? i.toNat
  else if 0 ≤ (l.length : ℤ) + i then l.get? ((l.length : ℤ) + i).toNat
  else none

/-- Clamp to `[0, 1]`, the `max(0, min(1, _))` of the source. -/
def clamp01 (q : ℚ) : ℚ := max 0 (min 1 q)

/-- A drawing command issued by `imshow_keypoints`: a filled circle for a
keypoint (plain or alpha-blended with the given transparency), or a limb
between two endpoints (plain `cv2.line` or the blended stick polygon). -/
inductive Draw2D where
  | circle (x y : ℤ) (c : Color)
  | circleW (x y : ℤ) (c : Color) (t : ℚ)
  | line (x1 y1 x2 y2 : ℤ) (c : Color)
  | lineW (x1 y1 x2 y2 : ℤ) (c : Color) (t : ℚ)
deriving DecidableEq

/-- The arguments of `imshow_keypoints` that affect its drawing decisions. -/
structure KptCtx where
  imgW : ℕ
  imgH : ℕ
  skeleton : Option (List (ℤ × ℤ))
  kpt_score_thr : ℚ
  pose_kpt_color : Option (List Color)
  pose_limb_color : Option (List Color)
  show_keypoint_weight : Bool
deriving DecidableEq

/-- Body of the per-keypoint loop of `imshow_keypoints` (lines 118-137):
draw a filled circle at the truncated coordinates when the score strictly
exceeds the threshold, blended with the clamped score in weighted mode. -/
def kptDraw (ctx : KptCtx) (k : Kpt2D) (c : Color) : List Draw2D :=
  if ctx.kpt_score_thr < k.score then
    if ctx.show_keypoint_weight then
      [Draw2D.circleW (truncZ k.x) (truncZ k.y) c (clamp01 k.score)]
    else
      [Draw2D.circle (truncZ k.x) (truncZ k.y) c]
  else []

/-- Body of the per-limb loop of `imshow_keypoints` (lines 142-184): resolve
the two 1-based endpoint indices (`IndexError` when out of range), then draw
the limb only when both truncated endpoints are strictly inside the image
and both scores strictly exceed the threshold. -/
def limbDraw (ctx : KptCtx) (kpts : List Kpt2D) (sk : ℤ × ℤ) (c : Color) :
    Except PyErr (List Draw2D) :=
  match pyGet kpts (sk.1 - 1), pyGet kpts (sk.2 - 1) with
  | some k1, some k2 =>
      let pos1 : ℤ × ℤ := (truncZ k1.x, truncZ k1.y)
      let pos2 : ℤ × ℤ := (truncZ k2.x, truncZ k2.y)
      if 0 < pos1.1 ∧ pos1.1 < (ctx.imgW : ℤ) ∧ 0 < pos1.2 ∧ pos1.2 < (ctx.imgH : ℤ) ∧
          0 < pos2.1 ∧ pos2.1 < (ctx.imgW : ℤ) ∧ 0 < pos2.2 ∧ pos2.2 < (ctx.imgH : ℤ) ∧
          ctx.kpt_score_thr < k1.score ∧ ctx.kpt_score_thr < k2.score then
        if ctx.show_keypoint_weight then
          Except.ok [Draw2D.lineW pos1.1 pos1.2 pos2.1 pos2.2 c
            (clamp01 (1 / 2 * (k1.score + k2.score)))]
        else
          Except.ok [Draw2D.line pos1.1 pos1.2 pos2.1 pos2.2 c]
      else Except.ok []
  | _, _ => Except.error PyErr.indexError

/-- The keypoint-circle phase for one pose: the `assert
len(pose_kpt_color) == len(kpts)` followed by the keypoint loop. -/
def poseCircles (ctx : KptCtx) (kpts : List Kpt2D) : Except PyErr (List Draw2D) :=
  match ctx.pose_kpt_color with
  | none => Except.ok []
  | some pc =>
      if pc.length = kpts.length then
        Except.ok ((kpts.zip pc).flatMap (fun p => kptDraw ctx p.1 p.2))
      else Except.error PyErr.assertionError

/-- Sequential execution of the limb loop over the zipped
`(skeleton, pose_limb_color)` entries, propagating the first error. -/
def limbsFold (ctx : KptCtx) (kpts : List Kpt2D) :
    List ((ℤ × ℤ) × Color) → Except PyErr (List Draw2D)
  | [] => Except.ok []
  | p :: rest =>
      match limbDraw ctx kpts p.1 p.2 with
      | Except.error e => Except.error e
      | Except.ok d =>
          match limbsFold ctx kpts rest with
          | Except.error e => Except.error e
          | Except.ok ds => Except.ok (d ++ ds)

/-- The limb phase for one pose: nothing unless both `skeleton` and
`pose_limb_color` are given, else the `assert
len(pose_limb_color) == len(skeleton)` followed by the limb loop. -/
def poseLimbs (ctx : KptCtx) (kpts : List Kpt2D) : Except PyErr (List Draw2D) :=
  match ctx.skeleton, ctx.pose_limb_color with
  | some sk, some lc =>
      if lc.length = sk.length then limbsFold ctx kpts (sk.zip lc)
      else Except.error PyErr.assertionError
  | _, _ => Except.ok []

/-- One iteration of the outer `for kpts in pose_result` loop. -/
def processPose (ctx : KptCtx) (kpts : List Kpt2D) : Except PyErr (List Draw2D) :=
  match poseCircles ctx kpts with
  | Except.error e => Except.error e
  | Except.ok circles =>
      match poseLimbs ctx kpts with
      | Except.error e => Except.error e
      | Except.ok limbs => Except.ok (circles ++ limbs)

/-- Model of `imshow_keypoints` (lines 85-186): the drawing commands issued
over all poses, or the first Python exception raised. -/
def imshow_keypoints (ctx : KptCtx) : List (List Kpt2D) → Except PyErr (List Draw2D)
  | [] => Except.ok []
  | kpts :: rest =>
      match processPose ctx kpts with
      | Except.error e => Except.error e
      | Except.ok d =>
          match imshow_keypoints ctx rest with
          | Except.error e => Except.error e
          | Except.ok ds => Except.ok (d ++ ds)

/-! Model of `imshow_keypoints_3d` (lines 189-319). -/

/-- One 3D keypoint row `[x, y, z, score]` of a `keypoints_3d` array. -/
structure Kpt3D where
  x : ℚ
  y : ℚ
  z : ℚ
  score : ℚ
deriving DecidableEq

/-- One entry of the `pose_result` list of `imshow_keypoints_3d`. -/
structure Pose3D where
  keypoints_3d : List Kpt3D
  title : Option String
deriving DecidableEq

/-- A 3D limb segment plotted by `ax.plot`. -/
structure Limb3D where
  p1 : ℚ × ℚ × ℚ
  p2 : ℚ × ℚ × ℚ
  color : Color
deriving DecidableEq

/-- The `valid` mask of line 256: keypoints whose score is at least
(`>=`) the threshold. -/
def validKpts (thr : ℚ) (kpts : List Kpt3D) : List Kpt3D :=
  kpts.filter (fun k => thr ≤ k.score)

/-- Panel center of lines 264-265: the mean of the x and y coordinates of
the `valid` keypoints, or `0` when no keypoint is valid. -/
def center3d (thr : ℚ) (kpts : List Kpt3D) : ℚ × ℚ :=
  (if 0 < (validKpts thr kpts).length then
      ((validKpts thr kpts).map Kpt3D.x).sum / ((validKpts thr kpts).length : ℚ)
    else 0,
   if 0 < (validKpts thr kpts).length then
      ((validKpts thr kpts).map Kpt3D.y).sum / ((validKpts thr kpts).length : ℚ)
    else 0)

/-- The `ax.scatter` call of lines 284-290: the keypoints selected by the
`valid` mask, paired with their colors. -/
def scatter3d (thr : ℚ) (kpts : List Kpt3D) (colors : List Color) :
    List (Kpt3D × Color) :=
  (kpts.zip colors).filter (fun p => thr ≤ p.1.score)

/-- Body of the per-limb loop of lines 295-304: resolve both 1-based
endpoint indices (`IndexError` when out of range) and plot the segment only
when the minimum endpoint score strictly exceeds the threshold. -/
def limbDraw3d (thr : ℚ) (kpts : List Kpt3D) (limb : ℤ × ℤ) (c : Color) :
    Except PyErr (List Limb3D) :=
  match pyGet kpts (limb.1 - 1), pyGet kpts (limb.2 - 1) with
  | some k1, some k2 =>
      if thr < min k1.score k2.score then
        Except.ok [⟨(k1.x, k1.y, k1.z), (k2.x, k2.y, k2.z), c⟩]
      else Except.ok []
  | _, _ => Except.error PyErr.indexError

/-- Sequential execution of the 3D limb loop over the zipped
`(skeleton, pose_limb_color)` entries. -/
def limbs3Fold (thr : ℚ) (kpts : List Kpt3D) :
    List ((ℤ × ℤ) × Color) → Except PyErr (List Limb3D)
  | [] => Except.ok []
  | p :: rest =>
      match limbDraw3d thr kpts p.1 p.2 with
      | Except.error e => Except.error e
      | Except.ok d =>
          match limbs3Fold thr kpts rest with
          | Except.error e => Except.error e
          | Except.ok ds => Except.ok (d ++ ds)

/-- One pose panel produced by `imshow_keypoints_3d`: its center, scattered
keypoints, plotted limbs, and optional title. -/
structure Panel3D where
  center : ℚ × ℚ
  scatter : List (Kpt3D × Color)
  limbs : List Limb3D
  title : Option String
deriving DecidableEq

/-- One iteration of the `for idx, res in enumerate(pose_result)` loop
(lines 254-307), with the two length `assert`s of lines 280 and 294. -/
def processPose3d (skeleton : Option (List (ℤ × ℤ))) (pkc plc : Option (List Color))
    (thr : ℚ) (res : Pose3D) : Except PyErr Panel3D :=
  let kpts := res.keypoints_3d
  match
    (match pkc with
     | none => Except.ok []
     | some pc =>
         if pc.length = kpts.length then Except.ok (scatter3d thr kpts pc)
         else Except.error PyErr.assertionError : Except PyErr (List (Kpt3D × Color))) with
  | Except.error e => Except.error e
  | Except.ok scat =>
      match
        (match skeleton, plc with
         | some sk, some lc =>
             if lc.length = sk.length then limbs3Fold thr kpts (sk.zip lc)
             else Except.error PyErr.assertionError
         | _, _ => Except.ok [] : Except PyErr (List Limb3D)) with
      | Except.error e => Except.error e
      | Except.ok limbs => Except.ok ⟨center3d thr kpts, scat, limbs, res.title⟩

/-- The pose loop of `imshow_keypoints_3d` over the whole `pose_result`. -/
def processPoses3d (skeleton : Option (List (ℤ × ℤ))) (pkc plc : Option (List Color))
    (thr : ℚ) : List Pose3D → Except PyErr (List Panel3D)
  | [] => Except.ok []
  | res :: rest =>
      match processPose3d skeleton pkc plc thr res with
      | Except.error e => Except.error e
      | Except.ok p =>
          match processPoses3d skeleton pkc plc thr rest with
          | Except.error e => Except.error e
          | Except.ok ps => Except.ok (p :: ps)

/-- The figure produced by `imshow_keypoints_3d`: the subplot-grid width
`num_axis` of line 237, whether the leading `Input` image panel of lines
242-252 exists, and the pose panels. -/
structure Fig3D where
  numAxis : ℕ
  hasImgPanel : Bool
  panels : List Panel3D
deriving DecidableEq

/-- Total number of plot panels of a figure: the pose panels plus the
leading image panel when present. -/
def totalPanels (fig : Fig3D) : ℕ :=
  fig.panels.length + (if fig.hasImgPanel then 1 else 0)

/-- Model of `imshow_keypoints_3d` (lines 189-319): `show_img` is
`img is not None`; `num_axis` is computed as on line 237. -/
def imshow_keypoints_3d (pose_result : List Pose3D) (show_img : Bool)
    (skeleton : Option (List (ℤ × ℤ))) (pkc plc : Option (List Color)) (thr : ℚ) :
    Except PyErr Fig3D :=
  match processPoses3d skeleton pkc plc thr pose_result with
  | Except.error e => Except.error e
  | Except.ok panels =>
      Except.ok ⟨if show_img then pose_result.length + 1 else pose_result.length,
        show_img, panels⟩

/-! Model of `imshow_bboxes` (lines 9-82). -/

/-- One bounding box row `[x1, y1, x2, y2]`. -/
structure BBox where
  x1 : ℚ
  y1 : ℚ
  x2 : ℚ
  y2 : ℚ
deriving DecidableEq

/-- The color `mmcv.color_val` gives for the default argument. -/
def greenBGR : Color := ⟨0, 255, 0⟩

/-- Model of `numpy.split(l, sections, axis=0)` with an integer section
count: `0 % 0` raises `ZeroDivisionError` when `sections` is `0`, an uneven
division raises `ValueError`, otherwise the list is cut into `sections`
equal chunks. -/
def np_split {α : Type} (l : List α) (sections : ℕ) : Except PyErr (List (List α)) :=
  if sections = 0 then Except.error PyErr.zeroDivisionError
  else if l.length % sections ≠ 0 then Except.error PyErr.valueError
  else Except.ok ((List.range sections).map (fun i =>
    (l.drop (i * (l.length / sections))).take (l.length / sections)))

/-- Model of `imshow_bboxes` (lines 9-82).  `colors` is `none` when a single
non-list color is broadcast; `labels` is `Sum.inl` for a single non-list
label (broadcast at line 59) and `Sum.inr` for a label list.  On success it
returns the split box list handed to `mmcv.imshow_bboxes`. -/
def imshow_bboxes {L : Type} (bboxes : List BBox) (colors : Option (List Color))
    (labels : Option (L ⊕ List L)) : Except PyErr (List (List BBox)) :=
  match np_split bboxes bboxes.length with
  | Except.error e => Except.error e
  | Except.ok bs =>
      let cs := match colors with
        | none => List.replicate bs.length greenBGR
        | some cl => cl
      if bs.length = cs.length then
        match labels with
        | none => Except.ok bs
        | some lab =>
            let ls := match lab with
              | Sum.inl one => List.replicate bs.length one
              | Sum.inr many => many
            if ls.length = bs.length then Except.ok bs
            else Except.error PyErr.assertionError
      else Except.error PyErr.assertionError

/-! Pixel-level model of the weighted / unweighted keypoint paths
(lines 120-137), used for the blending-equivalence property.  An image is a
row-major grid of BGR pixels with integer channels. -/

/-- Image buffer: a list of pixel rows. -/
abbrev Img := List (List Color)

/-- Channel values of a `uint8` buffer or color triple lie in `[0, 255]`. -/
def pixInRange (p : Color) : Prop :=
  0 ≤ p.r ∧ p.r ≤ 255 ∧ 0 ≤ p.g ∧ p.g ≤ 255 ∧ 0 ≤ p.b ∧ p.b ≤ 255

instance (p : Color) : Decidable (pixInRange p) := by
  unfold pixInRange
  infer_instance

/-- The `saturate_cast<uchar>` of `cv2.addWeighted`. -/
def satC (z : ℤ) : ℤ := max 0 (min 255 z)

/-- Per-channel formula of `cv2.addWeighted`:
`saturate(round(p * alpha + q * beta + gamma))`. -/
def blendCh (p q : ℤ) (a b g : ℚ) : ℤ :=
  satC (round ((p : ℚ) * a + (q : ℚ) * b + g))

/-- `cv2.addWeighted` on one pixel, channel-wise. -/
def blendPix (p q : Color) (a b g : ℚ) : Color :=
  ⟨blendCh p.r q.r a b g, blendCh p.g q.g a b g, blendCh p.b q.b a b g⟩

/-- `cv2.addWeighted(src1, a, src2, b, g)` over whole buffers. -/
def addWeighted (src1 : Img) (a : ℚ) (src2 : Img) (b g : ℚ) : Img :=
  (src1.zip src2).map (fun rr => (rr.1.zip rr.2).map (fun pp => blendPix pp.1 pp.2 a b g))

/-- One row of the filled-disc rasterization of `cv2.circle(.., -1)`:
`x` is the column index of the first pixel of the remaining row. -/
def drawCircleRow (cx cy : ℤ) (radius : ℕ) (c : Color) (y : ℕ) :
    List Color → ℕ → List Color
  | [], _ => []
  | p :: ps, x =>
      (if ((x : ℤ) - cx) ^ 2 + ((y : ℤ) - cy) ^ 2 ≤ (radius : ℤ) ^ 2 then c else p) ::
        drawCircleRow cx cy radius c y ps (x + 1)

/-- Rows of the filled-disc rasterization, `y` being the first row index. -/
def drawCircleRows (cx cy : ℤ) (radius : ℕ) (c : Color) :
    List (List Color) → ℕ → List (List Color)
  | [], _ => []
  | row :: rows, y => drawCircleRow cx cy radius c y row 0 ::
      drawCircleRows cx cy radius c rows (y + 1)

/-- Model of `cv2.circle(img, (cx, cy), radius, c, -1)`: fill every pixel
within `radius` of the center. -/
def drawCircleImg (img : Img) (cx cy : ℤ) (radius : ℕ) (c : Color) : Img :=
  drawCircleRows cx cy radius c img 0

/-- The weighted branch of lines 121-133: draw the circle on a copy, then
`cv2.addWeighted(img_copy, t, img, 1 - t, 0, dst=img)` with `t` the clamped
score. -/
def drawKptWeighted (img : Img) (k : Kpt2D) (c : Color) (radius : ℕ) : Img :=
  let cp := drawCircleImg img (truncZ k.x) (truncZ k.y) radius c
  let t := clamp01 k.score
  addWeighted cp t img (1 - t) 0

/-- The unweighted branch of lines 134-137: draw the circle in place. -/
def drawKptUnweighted (img : Img) (k : Kpt2D) (c : Color) (radius : ℕ) : Img :=
  drawCircleImg img (truncZ k.x) (truncZ k.y) radius c

/-- Equality of modelled call results is decidable, so concrete runs can be
checked by evaluation. -/
instance instDecEqExcept {ε α : Type} [DecidableEq ε] [DecidableEq α] :
    DecidableEq (Except ε α) := fun a b =>
  match a, b with
  | Except.ok x, Except.ok y =>
      if h : x = y then Decidable.isTrue (by rw [h])
      else Decidable.isFalse (fun hh => h (Except.ok.inj hh))
  | Except.error x, Except.error y =>
      if h : x = y then Decidable.isTrue (by rw [h])
      else Decidable.isFalse (fun hh => h (Except.error.inj hh))
  | Except.ok _, Except.error _ => Decidable.isFalse (fun hh => Except.noConfusion hh)
  | Except.error _, Except.ok _ => Decidable.isFalse (fun hh => Except.noConfusion hh)

/-! Theorems.  Rational arithmetic is unsealed so that concrete runs of the
models reduce by evaluation. -/

unseal Rat.mul Rat.inv Rat.add Rat.sub Rat.ofScientific

/-- C3: at an empty box array, `imshow_bboxes` does not return the drawn
buffer: `np.split(bboxes, 0, axis=0)` evaluates `0 % 0` and raises
`ZeroDivisionError` before anything is drawn, contradicting the claim that
no error is raised for zero boxes. -/
theorem imshow_bboxes_empty_raises :
    imshow_bboxes ([] : List BBox) none (none : Option (ℕ ⊕ List ℕ)) =
      Except.error PyErr.zeroDivisionError := rfl

/-- Successful runs of the 3D pose loop produce one panel per pose. -/
theorem processPoses3d_length (skeleton : Option (List (ℤ × ℤ)))
    (pkc plc : Option (List Color)) (thr : ℚ) (pr : List Pose3D) (ps : List Panel3D)
    (h : processPoses3d skeleton pkc plc thr pr = Except.ok ps) :
    ps.length = pr.length := by
  induction pr generalizing ps with
  | nil =>
      simp only [processPoses3d, Except.ok.injEq] at h
      simp [← h]
  | cons r rest ih =>
      unfold processPoses3d at h
      cases hp : processPose3d skeleton pkc plc thr r with
      | error e => rw [hp] at h; exact absurd h (by simp)
      | ok p =>
          rw [hp] at h
          cases hr : processPoses3d skeleton pkc plc thr rest with
          | error e => rw [hr] at h; exact absurd h (by simp)
          | ok ps2 =>
              rw [hr] at h
              simp only [Except.ok.injEq] at h
              subst h
              simp [ih ps2 hr]

/-- C5: for every successful call of `imshow_keypoints_3d`, the subplot
count `num_axis` equals the number of panels actually drawn, and the panel
count equals the number of pose records plus one exactly when a reference
image is supplied, and the number of pose records otherwise. -/
theorem num_axis_panels (pr : List Pose3D) (b : Bool) (sk : Option (List (ℤ × ℤ)))
    (pkc plc : Option (List Color)) (thr : ℚ) (fig : Fig3D)
    (h : imshow_keypoints_3d pr b sk pkc plc thr = Except.ok fig) :
    fig.numAxis = totalPanels fig ∧
    (b = true → totalPanels fig = pr.length + 1) ∧
    (b = false → totalPanels fig = pr.length) ∧
    (totalPanels fig = pr.length + 1 ↔ b = true) := by
  unfold imshow_keypoints_3d at h
  cases hp : processPoses3d sk pkc plc thr pr with
  | error e => rw [hp] at h; exact absurd h (by simp)
  | ok panels =>
      rw [hp] at h
      simp only [Except.ok.injEq] at h
      subst h
      have hlen := processPoses3d_length sk pkc plc thr pr panels hp
      cases b <;> simp [totalPanels, hlen]

/-- C10: a skeleton entry holding joint index `0` is not rejected by
`imshow_keypoints`: the 1-based conversion yields index `-1`, which Python
indexing resolves to the last keypoint instead of raising, so the limb is
evaluated exactly as if the entry had named the last (highest 1-based)
joint. -/
theorem skeleton_index_zero_wraps (ctx : KptCtx) (kpts : List Kpt2D) (c : Color)
    (j : ℤ) (h : kpts ≠ []) :
    pyGet kpts ((0 : ℤ) - 1) = kpts.getLast? ∧
    (pyGet kpts ((0 : ℤ) - 1)).isSome = true ∧
    limbDraw ctx kpts (0, j) c = limbDraw ctx kpts ((kpts.length : ℤ), j) c := by
  have hlen : 0 < kpts.length := List.length_pos.mpr h
  have h1 : pyGet kpts ((0 : ℤ) - 1) = kpts.get? (kpts.length - 1) := by
    unfold pyGet
    rw [if_neg (by norm_num), if_pos (by omega)]
    congr 1
    omega
  have h2 : pyGet kpts ((kpts.length : ℤ) - 1) = kpts.get? (kpts.length - 1) := by
    unfold pyGet
    rw [if_pos (by omega)]
    congr 1
    omega
  have hlast : kpts.getLast? = kpts.get? (kpts.length - 1) := by
    rw [List.getLast?_eq_getElem?, List.get?_eq_getElem?]
  have hsome : (kpts.get? (kpts.length - 1)).isSome = true := by
    rw [List.get?_eq_get (by omega)]
    rfl
  refine ⟨by rw [h1, hlast], by rw [h1]; exact hsome, ?_⟩
  have e : pyGet kpts (((0 : ℤ), j).1 - 1) = pyGet kpts (((kpts.length : ℤ), j).1 - 1) := by
    simpa using h1.trans h2.symm
  unfold limbDraw
  rw [e]

/-- C10 witness: on a concrete two-keypoint pose, index `0` resolves to the
last keypoint and the limb evaluation matches the one naming the last
joint explicitly. -/
theorem skeleton_index_zero_wraps_witness :
    pyGet [Kpt2D.mk 1 1 1, Kpt2D.mk 2 2 (2 : ℚ)] ((0 : ℤ) - 1) =
      List.getLast? [Kpt2D.mk 1 1 1, Kpt2D.mk 2 2 (2 : ℚ)] ∧
    (pyGet [Kpt2D.mk 1 1 1, Kpt2D.mk 2 2 (2 : ℚ)] ((0 : ℤ) - 1)).isSome = true ∧
    limbDraw (KptCtx.mk 10 10 none (3 / 10) none none false)
        [Kpt2D.mk 1 1 1, Kpt2D.mk 2 2 (2 : ℚ)] (0, 2) (Color.mk 0 0 0) =
      limbDraw (KptCtx.mk 10 10 none (3 / 10) none none false)
        [Kpt2D.mk 1 1 1, Kpt2D.mk 2 2 (2 : ℚ)] ((2 : ℤ), 2) (Color.mk 0 0 0) :=
  skeleton_index_zero_wraps (KptCtx.mk 10 10 none (3 / 10) none none false)
    [Kpt2D.mk 1 1 1, Kpt2D.mk 2 2 2] (Color.mk 0 0 0) 2 (by decide)

/-- C2: a limb is drawn by `imshow_keypoints` only if both truncated
endpoints are strictly inside the image (`0 < x < width`, `0 < y < height`);
an endpoint coordinate equal to `0`, to the width, or to the height makes
the limb silently skipped (`ok []`, no error). -/
theorem limb_inside_bounds (ctx : KptCtx) (kpts : List Kpt2D) (sk : ℤ × ℤ) (c : Color)
    (k1 k2 : Kpt2D) (l : List Draw2D)
    (h1 : pyGet kpts (sk.1 - 1) = some k1) (h2 : pyGet kpts (sk.2 - 1) = some k2) :
    (limbDraw ctx kpts sk c = Except.ok l → l ≠ [] →
      0 < truncZ k1.x ∧ truncZ k1.x < (ctx.imgW : ℤ) ∧
      0 < truncZ k1.y ∧ truncZ k1.y < (ctx.imgH : ℤ) ∧
      0 < truncZ k2.x ∧ truncZ k2.x < (ctx.imgW : ℤ) ∧
      0 < truncZ k2.y ∧ truncZ k2.y < (ctx.imgH : ℤ)) ∧
    ((truncZ k1.x = 0 ∨ truncZ k1.x = (ctx.imgW : ℤ) ∨
      truncZ k1.y = 0 ∨ truncZ k1.y = (ctx.imgH : ℤ) ∨
      truncZ k2.x = 0 ∨ truncZ k2.x = (ctx.imgW : ℤ) ∨
      truncZ k2.y = 0 ∨ truncZ k2.y = (ctx.imgH : ℤ)) →
      limbDraw ctx kpts sk c = Except.ok []) := by
  by_cases hc : 0 < truncZ k1.x ∧ truncZ k1.x < (ctx.imgW : ℤ) ∧
      0 < truncZ k1.y ∧ truncZ k1.y < (ctx.imgH : ℤ) ∧
      0 < truncZ k2.x ∧ truncZ k2.x < (ctx.imgW : ℤ) ∧
      0 < truncZ k2.y ∧ truncZ k2.y < (ctx.imgH : ℤ) ∧
      ctx.kpt_score_thr < k1.score ∧ ctx.kpt_score_thr < k2.score
  · obtain ⟨a1, a2, a3, a4, a5, a6, a7, a8, -, -⟩ := hc
    refine ⟨fun _ _ => ⟨a1, a2, a3, a4, a5, a6, a7, a8⟩, fun hb => ?_⟩
    rcases hb with hb | hb | hb | hb | hb | hb | hb | hb <;> omega
  · have hskip : limbDraw ctx kpts sk c = Except.ok [] := by
      simp only [limbDraw, h1, h2]
      rw [if_neg hc]
    refine ⟨fun hok hne => ?_, fun _ => hskip⟩
    rw [hskip] at hok
    simp only [Except.ok.injEq] at hok
    exact absurd hok.symm hne

/-- C2 witness: a concrete limb whose first endpoint truncates to
`x = image width` is skipped without error. -/
theorem limb_inside_bounds_witness :
    limbDraw (KptCtx.mk 8 6 none (3 / 10) none none false)
        [Kpt2D.mk (41 / 5) 3 1, Kpt2D.mk 4 5 1] (1, 2) (Color.mk 0 0 0) =
      Except.ok [] :=
  (limb_inside_bounds (KptCtx.mk 8 6 none (3 / 10) none none false)
    [Kpt2D.mk (41 / 5) 3 1, Kpt2D.mk 4 5 1] (1, 2) (Color.mk 0 0 0)
    (Kpt2D.mk (41 / 5) 3 1) (Kpt2D.mk 4 5 1) [] (by decide) (by decide)).2
    (by right; left; decide)

/-- C4 counterexample: with the default threshold `0.3`, a 3D limb whose two
endpoint scores are both exactly `0.3` satisfies `score >= kpt_score_thr`
at both endpoints, yet `imshow_keypoints_3d` does not plot it (the code
requires `kpt_score.min() > kpt_score_thr`, strictly): the pose panel has
an empty limb list. -/
theorem limb3d_at_threshold_not_drawn :
    (Kpt3D.mk 0 0 0 ((3 : ℚ) / 10)).score ≥ 3 / 10 ∧
    (Kpt3D.mk 1 1 1 ((3 : ℚ) / 10)).score ≥ 3 / 10 ∧
    processPose3d (some [(1, 2)]) none (some [Color.mk 255 0 0]) (3 / 10)
        (Pose3D.mk [Kpt3D.mk 0 0 0 ((3 : ℚ) / 10), Kpt3D.mk 1 1 1 ((3 : ℚ) / 10)] none) =
      Except.ok (Panel3D.mk (1 / 2, 1 / 2) [] [] none) :=
  ⟨by decide, by decide, by decide⟩

/-- C4 (amended): a 3D limb whose endpoint indices resolve is plotted
exactly when the minimum of its two endpoint scores is STRICTLY greater
than `kpt_score_thr` (not `>=` as claimed); otherwise the `ax.plot` list
contribution is empty. -/
theorem limb3d_drawn_iff_strict (thr : ℚ) (kpts : List Kpt3D) (limb : ℤ × ℤ) (c : Color)
    (k1 k2 : Kpt3D)
    (h1 : pyGet kpts (limb.1 - 1) = some k1) (h2 : pyGet kpts (limb.2 - 1) = some k2) :
    (limbDraw3d thr kpts limb c =
        Except.ok [Limb3D.mk (k1.x, k1.y, k1.z) (k2.x, k2.y, k2.z) c] ↔
      thr < k1.score ∧ thr < k2.score) ∧
    (limbDraw3d thr kpts limb c = Except.ok [] ↔
      ¬(thr < k1.score ∧ thr < k2.score)) := by
  have key : limbDraw3d thr kpts limb c =
      if thr < min k1.score k2.score then
        Except.ok [Limb3D.mk (k1.x, k1.y, k1.z) (k2.x, k2.y, k2.z) c]
      else Except.ok ([] : List Limb3D) := by
    simp only [limbDraw3d, h1, h2]
  by_cases hmin : thr < k1.score ∧ thr < k2.score
  · rw [key, if_pos (lt_min_iff.mpr hmin)]
    simp [hmin]
  · rw [key, if_neg (fun hlt => hmin (lt_min_iff.mp hlt))]
    simp [hmin]

/-- C4 witness: a concrete 3D limb with both endpoint scores `1` (strictly
above the threshold `0.3`) is plotted. -/
theorem limb3d_drawn_iff_strict_witness :
    limbDraw3d (3 / 10) [Kpt3D.mk 0 0 0 1, Kpt3D.mk 1 1 1 1] (1, 2) (Color.mk 9 9 9) =
      Except.ok [Limb3D.mk (0, 0, 0) (1, 1, 1) (Color.mk 9 9 9)] :=
  (limb3d_drawn_iff_strict (3 / 10) [Kpt3D.mk 0 0 0 1, Kpt3D.mk 1 1 1 1] (1, 2)
    (Color.mk 9 9 9) (Kpt3D.mk 0 0 0 1) (Kpt3D.mk 1 1 1 1)
    (by decide) (by decide)).1.mpr (by decide)

/-- C1 counterexample: a 3D keypoint whose score is exactly the threshold
IS scattered by `imshow_keypoints_3d` (the `valid` mask of line 256 uses
`>=`), contradicting the claim that the 3D renderer does not scatter it. -/
theorem scatter3d_includes_threshold_kpt :
    (Kpt3D.mk 2 3 1 ((3 : ℚ) / 10)).score = 3 / 10 ∧
    processPose3d none (some [Color.mk 255 0 0]) none (3 / 10)
        (Pose3D.mk [Kpt3D.mk 2 3 1 ((3 : ℚ) / 10)] none) =
      Except.ok (Panel3D.mk (2, 3)
        [(Kpt3D.mk 2 3 1 ((3 : ℚ) / 10), Color.mk 255 0 0)] [] none) :=
  ⟨by decide, by decide⟩

/-- C1 (amended): for a keypoint whose score is exactly `kpt_score_thr`,
the 2D renderer draws no circle for it and no limb having it as an
endpoint, and the 3D renderer plots no limb having it as an endpoint; the
3D scatter, however, uses `>=` and DOES include such a keypoint. -/
theorem threshold_equality_visibility (ctx : KptCtx) (k : Kpt2D) (c : Color)
    (kpts : List Kpt2D) (sk : ℤ × ℤ) (k1 k2 : Kpt2D) (thr : ℚ)
    (kpts3 : List Kpt3D) (pc3 : List Color) (k3 j1 j2 : Kpt3D) (c3 : Color)
    (limb : ℤ × ℤ) :
    (k.score = ctx.kpt_score_thr → kptDraw ctx k c = []) ∧
    (pyGet kpts (sk.1 - 1) = some k1 → pyGet kpts (sk.2 - 1) = some k2 →
      (k1.score = ctx.kpt_score_thr ∨ k2.score = ctx.kpt_score_thr) →
      limbDraw ctx kpts sk c = Except.ok []) ∧
    (pyGet kpts3 (limb.1 - 1) = some j1 → pyGet kpts3 (limb.2 - 1) = some j2 →
      (j1.score = thr ∨ j2.score = thr) →
      limbDraw3d thr kpts3 limb c3 = Except.ok []) ∧
    (k3.score = thr → (k3, c3) ∈ kpts3.zip pc3 → (k3, c3) ∈ scatter3d thr kpts3 pc3) := by
  refine ⟨fun hs => ?_, fun h1 h2 hor => ?_, fun h1 h2 hor => ?_, fun hs hmem => ?_⟩
  · simp [kptDraw, hs]
  · simp only [limbDraw, h1, h2]
    split
    · next hcond =>
        exfalso
        obtain ⟨-, -, -, -, -, -, -, -, hs1, hs2⟩ := hcond
        rcases hor with h | h
        · rw [h] at hs1; exact lt_irrefl _ hs1
        · rw [h] at hs2; exact lt_irrefl _ hs2
    · rfl
  · simp only [limbDraw3d, h1, h2]
    split
    · next hlt =>
        exfalso
        have hle : min j1.score j2.score ≤ thr := by
          rcases hor with h | h
          · rw [← h]; exact min_le_left _ _
          · rw [← h]; exact min_le_right _ _
        exact absurd hlt (not_lt.mpr hle)
    · rfl
  · exact List.mem_filter.mpr ⟨hmem, by simp [hs]⟩

/-- C1 witness: concrete runs at score exactly `0.3` with threshold `0.3`:
no 2D circle, no 2D limb, no 3D limb, but the 3D scatter includes the
keypoint. -/
theorem threshold_equality_visibility_witness :
    kptDraw (KptCtx.mk 10 10 none (3 / 10) none none false)
      (Kpt2D.mk 5 5 (3 / 10)) (Color.mk 1 2 3) = [] ∧
    limbDraw (KptCtx.mk 10 10 none (3 / 10) none none false)
      [Kpt2D.mk 5 5 (3 / 10), Kpt2D.mk 6 6 1] (1, 2) (Color.mk 1 2 3) = Except.ok [] ∧
    limbDraw3d (3 / 10) [Kpt3D.mk 1 2 3 (3 / 10), Kpt3D.mk 4 5 6 1] (1, 2)
      (Color.mk 1 2 3) = Except.ok [] ∧
    (Kpt3D.mk 1 2 3 (3 / 10), Color.mk 7 8 9) ∈
      scatter3d (3 / 10) [Kpt3D.mk 1 2 3 (3 / 10), Kpt3D.mk 4 5 6 1]
        [Color.mk 7 8 9, Color.mk 0 0 0] := by
  refine ⟨?_, ?_, ?_, ?_⟩
  · exact (threshold_equality_visibility (KptCtx.mk 10 10 none (3 / 10) none none false)
      (Kpt2D.mk 5 5 (3 / 10)) (Color.mk 1 2 3)
      [Kpt2D.mk 5 5 (3 / 10), Kpt2D.mk 6 6 1] (1, 2)
      (Kpt2D.mk 5 5 (3 / 10)) (Kpt2D.mk 6 6 1) (3 / 10)
      [Kpt3D.mk 1 2 3 (3 / 10), Kpt3D.mk 4 5 6 1] [Color.mk 7 8 9, Color.mk 0 0 0]
      (Kpt3D.mk 1 2 3 (3 / 10)) (Kpt3D.mk 1 2 3 (3 / 10)) (Kpt3D.mk 4 5 6 1)
      (Color.mk 1 2 3) (1, 2)).1 rfl
  · exact (threshold_equality_visibility (KptCtx.mk 10 10 none (3 / 10) none none false)
      (Kpt2D.mk 5 5 (3 / 10)) (Color.mk 1 2 3)
      [Kpt2D.mk 5 5 (3 / 10), Kpt2D.mk 6 6 1] (1, 2)
      (Kpt2D.mk 5 5 (3 / 10)) (Kpt2D.mk 6 6 1) (3 / 10)
      [Kpt3D.mk 1 2 3 (3 / 10), Kpt3D.mk 4 5 6 1] [Color.mk 7 8 9, Color.mk 0 0 0]
      (Kpt3D.mk 1 2 3 (3 / 10)) (Kpt3D.mk 1 2 3 (3 / 10)) (Kpt3D.mk 4 5 6 1)
      (Color.mk 1 2 3) (1, 2)).2.1 (by decide) (by decide) (Or.inl rfl)
  · exact (threshold_equality_visibility (KptCtx.mk 10 10 none (3 / 10) none none false)
      (Kpt2D.mk 5 5 (3 / 10)) (Color.mk 1 2 3)
      [Kpt2D.mk 5 5 (3 / 10), Kpt2D.mk 6 6 1] (1, 2)
      (Kpt2D.mk 5 5 (3 / 10)) (Kpt2D.mk 6 6 1) (3 / 10)
      [Kpt3D.mk 1 2 3 (3 / 10), Kpt3D.mk 4 5 6 1] [Color.mk 7 8 9, Color.mk 0 0 0]
      (Kpt3D.mk 1 2 3 (3 / 10)) (Kpt3D.mk 1 2 3 (3 / 10)) (Kpt3D.mk 4 5 6 1)
      (Color.mk 1 2 3) (1, 2)).2.2.1 (by decide) (by decide) (Or.inl rfl)
  · exact (threshold_equality_visibility (KptCtx.mk 10 10 none (3 / 10) none none false)
      (Kpt2D.mk 5 5 (3 / 10)) (Color.mk 1 2 3)
      [Kpt2D.mk 5 5 (3 / 10), Kpt2D.mk 6 6 1] (1, 2)
      (Kpt2D.mk 5 5 (3 / 10)) (Kpt2D.mk 6 6 1) (3 / 10)
      [Kpt3D.mk 1 2 3 (3 / 10), Kpt3D.mk 4 5 6 1] [Color.mk 7 8 9, Color.mk 0 0 0]
      (Kpt3D.mk 1 2 3 (3 / 10)) (Kpt3D.mk 1 2 3 (3 / 10)) (Kpt3D.mk 4 5 6 1)
      (Color.mk 7 8 9) (1, 2)).2.2.2 rfl (by decide)

/-- C5 witness: a concrete call with one pose and a reference image yields
`num_axis = 2` and two panels. -/
theorem num_axis_panels_witness :
    (Fig3D.mk 2 true [Panel3D.mk (0, 0) [] [] none]).numAxis =
      totalPanels (Fig3D.mk 2 true [Panel3D.mk (0, 0) [] [] none]) ∧
    (true = true → totalPanels (Fig3D.mk 2 true [Panel3D.mk (0, 0) [] [] none]) =
      [Pose3D.mk [] none].length + 1) ∧
    (true = false → totalPanels (Fig3D.mk 2 true [Panel3D.mk (0, 0) [] [] none]) =
      [Pose3D.mk [] none].length) ∧
    (totalPanels (Fig3D.mk 2 true [Panel3D.mk (0, 0) [] [] none]) =
      [Pose3D.mk [] none].length + 1 ↔ true = true) :=
  num_axis_panels [Pose3D.mk [] none] true none none none (3 / 10)
    (Fig3D.mk 2 true [Panel3D.mk (0, 0) [] [] none]) (by decide)

/-- C6: in `imshow_keypoints_3d` the panel center defaults to `(0, 0)` when
no keypoint meets (`>=`) the score threshold — and no error is raised —
and otherwise is the mean of the x and y coordinates of the keypoints
meeting the threshold. -/
theorem center3d_default_zero (thr : ℚ) (kpts : List Kpt3D) (res : Pose3D) :
    (validKpts thr kpts = [] → center3d thr kpts = (0, 0)) ∧
    (validKpts thr kpts ≠ [] → center3d thr kpts =
      (((validKpts thr kpts).map Kpt3D.x).sum / ((validKpts thr kpts).length : ℚ),
       ((validKpts thr kpts).map Kpt3D.y).sum / ((validKpts thr kpts).length : ℚ))) ∧
    processPose3d none none none thr res =
      Except.ok (Panel3D.mk (center3d thr res.keypoints_3d) [] [] res.title) := by
  refine ⟨fun h => ?_, fun h => ?_, rfl⟩
  · unfold center3d
    rw [h]
    simp
  · have hl : 0 < (validKpts thr kpts).length := List.length_pos.mpr h
    unfold center3d
    rw [if_pos hl, if_pos hl]

/-- C6 witness: a pose whose single keypoint scores below the threshold
gets center `(0, 0)` and a successfully produced panel. -/
theorem center3d_default_zero_witness :
    center3d (3 / 10) [Kpt3D.mk 1 2 3 (1 / 10)] = (0, 0) ∧
    processPose3d none none none (3 / 10) (Pose3D.mk [Kpt3D.mk 1 2 3 (1 / 10)] none) =
      Except.ok (Panel3D.mk (center3d (3 / 10) [Kpt3D.mk 1 2 3 (1 / 10)]) [] [] none) :=
  ⟨(center3d_default_zero (3 / 10) [Kpt3D.mk 1 2 3 (1 / 10)]
      (Pose3D.mk [Kpt3D.mk 1 2 3 (1 / 10)] none)).1 (by decide),
   (center3d_default_zero (3 / 10) [Kpt3D.mk 1 2 3 (1 / 10)]
      (Pose3D.mk [Kpt3D.mk 1 2 3 (1 / 10)] none)).2.2⟩

/-- Zipping preserves positional lookups. -/
theorem zipGetSome {α β : Type} (l1 : List α) (l2 : List β) (i : ℕ) (a : α) (b : β)
    (h1 : l1.get? i = some a) (h2 : l2.get? i = some b) :
    (l1.zip l2).get? i = some (a, b) := by
  induction l1 generalizing l2 i with
  | nil => simp at h1
  | cons x xs ih =>
      cases l2 with
      | nil => simp at h2
      | cons y ys =>
          cases i with
          | zero =>
              simp only [List.get?] at h1 h2
              injection h1 with h1
              injection h2 with h2
              subst h1
              subst h2
              rfl
          | succ n =>
              simp only [List.get?] at h1 h2
              exact ih ys n h1 h2

/-- C9: every keypoint whose score strictly exceeds the threshold is passed
to the circle-drawing call by `imshow_keypoints`, with no condition
whatsoever on its coordinates: the image-bounds gate applies only to
limbs. -/
theorem kpt_drawn_regardless_of_bounds (ctx : KptCtx) (pr : List (List Kpt2D))
    (trace : List Draw2D) (kpts : List Kpt2D) (pc : List Color) (i : ℕ)
    (k : Kpt2D) (c : Color)
    (hok : imshow_keypoints ctx pr = Except.ok trace)
    (hmem : kpts ∈ pr)
    (hpc : ctx.pose_kpt_color = some pc)
    (hlen : pc.length = kpts.length)
    (hk : kpts.get? i = some k) (hc : pc.get? i = some c)
    (hs : ctx.kpt_score_thr < k.score) :
    Draw2D.circle (truncZ k.x) (truncZ k.y) c ∈ trace ∨
    Draw2D.circleW (truncZ k.x) (truncZ k.y) c (clamp01 k.score) ∈ trace := by
  induction pr generalizing trace with
  | nil => cases hmem
  | cons h t ih =>
      unfold imshow_keypoints at hok
      cases hph : processPose ctx h with
      | error e => rw [hph] at hok; exact absurd hok (by simp)
      | ok d =>
          rw [hph] at hok
          cases hr : imshow_keypoints ctx t with
          | error e => rw [hr] at hok; exact absurd hok (by simp)
          | ok ds =>
              rw [hr] at hok
              simp only [Except.ok.injEq] at hok
              subst hok
              rcases List.mem_cons.mp hmem with he | ht
              · subst he
                have hpcirc : poseCircles ctx kpts =
                    Except.ok ((kpts.zip pc).flatMap fun p => kptDraw ctx p.1 p.2) := by
                  simp only [poseCircles, hpc]
                  rw [if_pos hlen]
                unfold processPose at hph
                rw [hpcirc] at hph
                cases hpl : poseLimbs ctx kpts with
                | error e => rw [hpl] at hph; exact absurd hph (by simp)
                | ok limbs =>
                    rw [hpl] at hph
                    simp only [Except.ok.injEq] at hph
                    subst hph
                    have hzip : (k, c) ∈ kpts.zip pc :=
                      List.get?_mem (zipGetSome kpts pc i k c hk hc)
                    cases hw : ctx.show_keypoint_weight with
                    | false =>
                        refine Or.inl ?_
                        refine List.mem_append.mpr (Or.inl (List.mem_append.mpr (Or.inl ?_)))
                        refine List.mem_flatMap.mpr ⟨(k, c), hzip, ?_⟩
                        simp [kptDraw, hs, hw]
                    | true =>
                        refine Or.inr ?_
                        refine List.mem_append.mpr (Or.inl (List.mem_append.mpr (Or.inl ?_)))
                        refine List.mem_flatMap.mpr ⟨(k, c), hzip, ?_⟩
                        simp [kptDraw, hs, hw]
              · rcases ih ds hr ht with h1 | h1
                · exact Or.inl (List.mem_append.mpr (Or.inr h1))
                · exact Or.inr (List.mem_append.mpr (Or.inr h1))

/-- C9 witness: a keypoint at `(-100, 500)`, far outside a `10 x 10` image,
is still drawn as a circle since its score exceeds the threshold. -/
theorem kpt_drawn_regardless_of_bounds_witness :
    Draw2D.circle (truncZ (-100)) (truncZ 500) (Color.mk 1 2 3) ∈
      [Draw2D.circle (truncZ (-100)) (truncZ 500) (Color.mk 1 2 3)] ∨
    Draw2D.circleW (truncZ (-100)) (truncZ 500) (Color.mk 1 2 3) (clamp01 1) ∈
      [Draw2D.circle (truncZ (-100)) (truncZ 500) (Color.mk 1 2 3)] :=
  kpt_drawn_regardless_of_bounds
    (KptCtx.mk 10 10 none (3 / 10) (some [Color.mk 1 2 3]) none false)
    [[Kpt2D.mk (-100) 500 1]] [Draw2D.circle (truncZ (-100)) (truncZ 500) (Color.mk 1 2 3)]
    [Kpt2D.mk (-100) 500 1] [Color.mk 1 2 3] 0 (Kpt2D.mk (-100) 500 1) (Color.mk 1 2 3)
    (by decide) (by decide) rfl (by decide) (by decide) (by decide) (by decide)

/-- The keypoint-circle phase can only fail on its length assert. -/
theorem poseCircles_error (ctx : KptCtx) (kpts : List Kpt2D) (e : PyErr)
    (h : poseCircles ctx kpts = Except.error e) : e = PyErr.assertionError := by
  cases hp : ctx.pose_kpt_color with
  | none =>
      simp only [poseCircles, hp] at h
      exact absurd h (by simp)
  | some pc =>
      simp only [poseCircles, hp] at h
      by_cases hl : pc.length = kpts.length
      · rw [if_pos hl] at h
        exact absurd h (by simp)
      · rw [if_neg hl] at h
        simp only [Except.error.injEq] at h
        exact h.symm

/-- A keypoint-color length mismatch at any pose makes the whole
`imshow_keypoints` run fail. -/
theorem imshow_error_of_kpt_color_mismatch (ctx : KptCtx) (pc : List Color)
    (hpc : ctx.pose_kpt_color = some pc) (pr : List (List Kpt2D)) (kpts : List Kpt2D)
    (hmem : kpts ∈ pr) (hne : pc.length ≠ kpts.length) :
    ∃ e, imshow_keypoints ctx pr = Except.error e := by
  induction pr with
  | nil => cases hmem
  | cons hh t ih =>
      rcases List.mem_cons.mp hmem with hre | ht
      · subst hre
        have hpcErr : poseCircles ctx kpts = Except.error PyErr.assertionError := by
          simp only [poseCircles, hpc]
          rw [if_neg hne]
        refine ⟨PyErr.assertionError, ?_⟩
        have hpp : processPose ctx kpts = Except.error PyErr.assertionError := by
          simp only [processPose, hpcErr]
        simp only [imshow_keypoints, hpp]
      · cases hph : processPose ctx hh with
        | error e =>
            exact ⟨e, by simp only [imshow_keypoints, hph]⟩
        | ok d =>
            obtain ⟨e, he⟩ := ih ht
            exact ⟨e, by simp only [imshow_keypoints, hph, he]⟩

/-- With a nonzero section count equal to its length, `np.split` succeeds
and yields as many chunks as sections. -/
theorem np_split_ok {α : Type} (l : List α) (h : l.length ≠ 0) :
    ∃ bs, np_split l l.length = Except.ok bs ∧ bs.length = l.length := by
  refine ⟨(List.range l.length).map (fun i =>
      (l.drop (i * (l.length / l.length))).take (l.length / l.length)), ?_, ?_⟩
  · unfold np_split
    rw [if_neg h, if_neg (by simp [Nat.mod_self])]
  · simp

/-- C8 counterexample: the length asserts do NOT always fire.  With an
empty `pose_result`, a skeleton/limb-color length mismatch returns `ok`
silently; with a kpt-color mismatch at the second pose, the first pose can
fail first with an `IndexError` (not an assertion error, from an
out-of-range skeleton index); with zero boxes and a mismatched label list,
`imshow_bboxes` fails with `ZeroDivisionError` instead of the assert. -/
theorem asserts_skipped_edge_cases :
    imshow_keypoints
      (KptCtx.mk 10 10 (some [(1, 2)]) (3 / 10) none
        (some [Color.mk 0 0 0, Color.mk 1 1 1]) false) [] = Except.ok [] ∧
    imshow_keypoints
      (KptCtx.mk 10 10 (some [(5, 1)]) (3 / 10) (some [Color.mk 0 0 0])
        (some [Color.mk 0 0 0]) false)
      [[Kpt2D.mk 1 1 1], [Kpt2D.mk 1 1 1, Kpt2D.mk 1 1 1]] =
      Except.error PyErr.indexError ∧
    imshow_bboxes ([] : List BBox) none (some (Sum.inr [(0 : ℕ)])) =
      Except.error PyErr.zeroDivisionError :=
  ⟨by decide, by decide, by decide⟩

/-- C8 (amended): the length asserts of `imshow_keypoints` run once per
pose inside the pose loop, so they can only fire when `pose_result` is
nonempty: a `pose_kpt_color` length mismatch at some pose makes the call
fail with an error — an assertion error when the mismatch is at the first
pose, though an earlier pose may fail first with a different error — and
with at least one pose a `skeleton`/`pose_limb_color` length mismatch
fails with an assertion error; `imshow_bboxes` with a NONZERO box count
and a label list of different length fails with an assertion error. -/
theorem length_mismatch_fails {L : Type} (ctx : KptCtx) (pr : List (List Kpt2D))
    (pc : List Color) (kpts kpts0 : List Kpt2D) (rest : List (List Kpt2D))
    (sk : List (ℤ × ℤ)) (lc : List Color) (bboxes : List BBox)
    (bcolors : Option (List Color)) (ls : List L) :
    (ctx.pose_kpt_color = some pc → kpts ∈ pr → pc.length ≠ kpts.length →
      ∃ e, imshow_keypoints ctx pr = Except.error e) ∧
    (ctx.pose_kpt_color = some pc → pc.length ≠ kpts0.length →
      imshow_keypoints ctx (kpts0 :: rest) = Except.error PyErr.assertionError) ∧
    (ctx.skeleton = some sk → ctx.pose_limb_color = some lc → lc.length ≠ sk.length →
      imshow_keypoints ctx (kpts0 :: rest) = Except.error PyErr.assertionError) ∧
    (bboxes ≠ [] → ls.length ≠ bboxes.length →
      imshow_bboxes bboxes bcolors (some (Sum.inr ls)) =
        Except.error PyErr.assertionError) := by
  refine ⟨fun hpc hmem hne => imshow_error_of_kpt_color_mismatch ctx pc hpc pr kpts hmem hne,
    fun hpc hne => ?_, fun hsk hlc hne => ?_, fun hne hlen => ?_⟩
  · have hpcErr : poseCircles ctx kpts0 = Except.error PyErr.assertionError := by
      simp only [poseCircles, hpc]
      rw [if_neg hne]
    simp only [imshow_keypoints, processPose, hpcErr]
  · have hplErr : poseLimbs ctx kpts0 = Except.error PyErr.assertionError := by
      simp only [poseLimbs, hsk, hlc]
      rw [if_neg hne]
    cases hpcr : poseCircles ctx kpts0 with
    | error e =>
        have he := poseCircles_error ctx kpts0 e hpcr
        subst he
        simp only [imshow_keypoints, processPose, hpcr]
    | ok d =>
        simp only [imshow_keypoints, processPose, hpcr, hplErr]
  · obtain ⟨bs, hsplit, hbslen⟩ :=
      np_split_ok bboxes (fun h0 => hne (List.length_eq_zero.mp h0))
    cases bcolors with
    | none =>
        simp only [imshow_bboxes, hsplit]
        rw [if_pos (by simp)]
        rw [if_neg (fun hleq => hlen (hleq.trans hbslen))]
    | some cl =>
        simp only [imshow_bboxes, hsplit]
        by_cases hcl : bs.length = cl.length
        · rw [if_pos hcl, if_neg (fun hleq => hlen (hleq.trans hbslen))]
        · rw [if_neg hcl]

/-- C8 witness: concrete mismatched calls with a nonempty pose list and a
nonzero box count all fail with an assertion error. -/
theorem length_mismatch_fails_witness :
    (∃ e, imshow_keypoints
        (KptCtx.mk 10 10 (some [(1, 2)]) (3 / 10) (some [Color.mk 0 0 0])
          (some [Color.mk 0 0 0, Color.mk 1 1 1]) false)
        [[Kpt2D.mk 1 1 1, Kpt2D.mk 2 2 1]] = Except.error e) ∧
    imshow_keypoints
        (KptCtx.mk 10 10 (some [(1, 2)]) (3 / 10) (some [Color.mk 0 0 0])
          (some [Color.mk 0 0 0, Color.mk 1 1 1]) false)
        [[Kpt2D.mk 1 1 1, Kpt2D.mk 2 2 1]] = Except.error PyErr.assertionError ∧
    imshow_keypoints
        (KptCtx.mk 10 10 (some [(1, 2)]) (3 / 10) (some [Color.mk 0 0 0])
          (some [Color.mk 0 0 0, Color.mk 1 1 1]) false)
        [[Kpt2D.mk 1 1 1, Kpt2D.mk 2 2 1]] = Except.error PyErr.assertionError ∧
    imshow_bboxes [BBox.mk 0 0 1 1] none (some (Sum.inr [(0 : ℕ), 1])) =
      Except.error PyErr.assertionError := by
  refine ⟨?_, ?_, ?_, ?_⟩
  · exact (length_mismatch_fails
      (KptCtx.mk 10 10 (some [(1, 2)]) (3 / 10) (some [Color.mk 0 0 0])
        (some [Color.mk 0 0 0, Color.mk 1 1 1]) false)
      [[Kpt2D.mk 1 1 1, Kpt2D.mk 2 2 1]] [Color.mk 0 0 0]
      [Kpt2D.mk 1 1 1, Kpt2D.mk 2 2 1] [Kpt2D.mk 1 1 1, Kpt2D.mk 2 2 1] []
      [(1, 2)] [Color.mk 0 0 0, Color.mk 1 1 1] [BBox.mk 0 0 1 1] none
      [(0 : ℕ), 1]).1 rfl (by decide) (by decide)
  · exact (length_mismatch_fails
      (KptCtx.mk 10 10 (some [(1, 2)]) (3 / 10) (some [Color.mk 0 0 0])
        (some [Color.mk 0 0 0, Color.mk 1 1 1]) false)
      [[Kpt2D.mk 1 1 1, Kpt2D.mk 2 2 1]] [Color.mk 0 0 0]
      [Kpt2D.mk 1 1 1, Kpt2D.mk 2 2 1] [Kpt2D.mk 1 1 1, Kpt2D.mk 2 2 1] []
      [(1, 2)] [Color.mk 0 0 0, Color.mk 1 1 1] [BBox.mk 0 0 1 1] none
      [(0 : ℕ), 1]).2.1 rfl (by decide)
  · exact (length_mismatch_fails
      (KptCtx.mk 10 10 (some [(1, 2)]) (3 / 10) (some [Color.mk 0 0 0])
        (some [Color.mk 0 0 0, Color.mk 1 1 1]) false)
      [[Kpt2D.mk 1 1 1, Kpt2D.mk 2 2 1]] [Color.mk 0 0 0]
      [Kpt2D.mk 1 1 1, Kpt2D.mk 2 2 1] [Kpt2D.mk 1 1 1, Kpt2D.mk 2 2 1] []
      [(1, 2)] [Color.mk 0 0 0, Color.mk 1 1 1] [BBox.mk 0 0 1 1] none
      [(0 : ℕ), 1]).2.2.1 rfl rfl (by decide)
  · exact (length_mismatch_fails
      (KptCtx.mk 10 10 (some [(1, 2)]) (3 / 10) (some [Color.mk 0 0 0])
        (some [Color.mk 0 0 0, Color.mk 1 1 1]) false)
      [[Kpt2D.mk 1 1 1, Kpt2D.mk 2 2 1]] [Color.mk 0 0 0]
      [Kpt2D.mk 1 1 1, Kpt2D.mk 2 2 1] [Kpt2D.mk 1 1 1, Kpt2D.mk 2 2 1] []
      [(1, 2)] [Color.mk 0 0 0, Color.mk 1 1 1] [BBox.mk 0 0 1 1] none
      [(0 : ℕ), 1]).2.2.2 (by decide) (by decide)

/-- Saturation is the identity on in-range channels. -/
theorem satC_id (z : ℤ) (h0 : 0 ≤ z) (h255 : z ≤ 255) : satC z = z := by
  unfold satC
  omega

/-- An `addWeighted` channel with weights `1, 0, 0` returns the first
channel unchanged when it is in range. -/
theorem blendCh_one (p q : ℤ) (h0 : 0 ≤ p) (h255 : p ≤ 255) :
    blendCh p q 1 0 0 = p := by
  unfold blendCh
  rw [show (p : ℚ) * 1 + (q : ℚ) * 0 + 0 = ((p : ℤ) : ℚ) by ring]
  rw [round_intCast]
  exact satC_id p h0 h255

/-- An `addWeighted` pixel with weights `1, 0, 0` is the identity on
in-range pixels. -/
theorem blendPix_one (p q : Color) (h : pixInRange p) : blendPix p q 1 0 0 = p := by
  obtain ⟨h1, h2, h3, h4, h5, h6⟩ := h
  unfold blendPix
  rw [blendCh_one p.r q.r h1 h2, blendCh_one p.g q.g h3 h4, blendCh_one p.b q.b h5 h6]

/-- An `addWeighted` row with weights `1, 0, 0` is the identity. -/
theorem addWeighted_one_row (ra rb : List Color) (hlen : ra.length = rb.length)
    (hin : ∀ p ∈ ra, pixInRange p) :
    (ra.zip rb).map (fun pp => blendPix pp.1 pp.2 1 0 0) = ra := by
  induction ra generalizing rb with
  | nil => simp
  | cons p ps ih =>
      cases rb with
      | nil => simp at hlen
      | cons q qs =>
          simp only [List.zip_cons_cons, List.map_cons]
          rw [blendPix_one p q (hin p (List.mem_cons_self p ps))]
          rw [ih qs (by simpa using hlen) (fun x hx => hin x (List.mem_cons_of_mem p hx))]

/-- An `addWeighted` buffer with weights `1, 0, 0` is the identity on
in-range buffers of matching shape. -/
theorem addWeighted_one (a b : Img)
    (hlen : List.Forall₂ (fun (r s : List Color) => r.length = s.length) a b)
    (hin : ∀ r ∈ a, ∀ p ∈ r, pixInRange p) :
    addWeighted a 1 b 0 0 = a := by
  induction hlen with
  | nil => simp [addWeighted]
  | cons hrow hrest ih =>
      rename_i r s l1 l2
      unfold addWeighted
      simp only [List.zip_cons_cons, List.map_cons]
      rw [addWeighted_one_row r s hrow (fun p hp => hin r (List.mem_cons_self r l1) p hp)]
      have h2 := ih (fun rr hrr => hin rr (List.mem_cons_of_mem r hrr))
      unfold addWeighted at h2
      rw [h2]

/-- The disc rasterizer preserves row length. -/
theorem drawCircleRow_length (cx cy : ℤ) (radius : ℕ) (c : Color) (y : ℕ)
    (ps : List Color) (x : ℕ) :
    (drawCircleRow cx cy radius c y ps x).length = ps.length := by
  induction ps generalizing x with
  | nil => rfl
  | cons p pt ih => simp [drawCircleRow, ih]

/-- The disc rasterizer preserves the shape of the buffer. -/
theorem drawCircleRows_shape (cx cy : ℤ) (radius : ℕ) (c : Color)
    (rows : List (List Color)) (y : ℕ) :
    List.Forall₂ (fun (r s : List Color) => r.length = s.length)
      (drawCircleRows cx cy radius c rows y) rows := by
  induction rows generalizing y with
  | nil => simp [drawCircleRows]
  | cons row rt ih =>
      simp only [drawCircleRows]
      exact List.Forall₂.cons (drawCircleRow_length cx cy radius c y row 0) (ih (y + 1))

/-- The disc rasterizer keeps a row in range when the fill color is. -/
theorem drawCircleRow_inRange (cx cy : ℤ) (radius : ℕ) (c : Color) (y : ℕ)
    (hc : pixInRange c) (ps : List Color) (x : ℕ) (hin : ∀ p ∈ ps, pixInRange p) :
    ∀ p ∈ drawCircleRow cx cy radius c y ps x, pixInRange p := by
  induction ps generalizing x with
  | nil => intro p hp; simp [drawCircleRow] at hp
  | cons q qs ih =>
      intro p hp
      simp only [drawCircleRow, List.mem_cons] at hp
      rcases hp with hp | hp
      · subst hp
        split_ifs with hcond
        · exact hc
        · exact hin q (List.mem_cons_self q qs)
      · exact ih (x + 1) (fun r hr => hin r (List.mem_cons_of_mem q hr)) p hp

/-- The disc rasterizer keeps the buffer in range when the fill color is. -/
theorem drawCircleRows_inRange (cx cy : ℤ) (radius : ℕ) (c : Color)
    (hc : pixInRange c) (rows : List (List Color)) (y : ℕ)
    (hin : ∀ r ∈ rows, ∀ p ∈ r, pixInRange p) :
    ∀ r ∈ drawCircleRows cx cy radius c rows y, ∀ p ∈ r, pixInRange p := by
  induction rows generalizing y with
  | nil => intro r hr; simp [drawCircleRows] at hr
  | cons row rt ih =>
      intro r hr
      simp only [drawCircleRows, List.mem_cons] at hr
      rcases hr with hr | hr
      · subst hr
        exact drawCircleRow_inRange cx cy radius c y hc row 0
          (hin row (List.mem_cons_self row rt))
      · exact ih (y + 1) (fun rr hrr => hin rr (List.mem_cons_of_mem row hrr)) r hr

/-- C7: at confidence exactly `1.0`, the weighted keypoint path (draw on a
copy, then `addWeighted` with opacity `clamp(score) = 1` on the copy and
`0` on the original) produces the same buffer as the unweighted path
drawing the same circle, for any `uint8` (in-range) buffer and color. -/
theorem weighted_full_confidence_eq_unweighted (img : Img) (k : Kpt2D) (c : Color)
    (radius : ℕ) (hs : k.score = 1)
    (hin : ∀ r ∈ img, ∀ p ∈ r, pixInRange p) (hc : pixInRange c) :
    drawKptWeighted img k c radius = drawKptUnweighted img k c radius := by
  simp only [drawKptWeighted, drawKptUnweighted]
  rw [hs]
  rw [show clamp01 (1 : ℚ) = 1 by unfold clamp01; norm_num]
  rw [show (1 : ℚ) - 1 = 0 by norm_num]
  unfold drawCircleImg
  exact addWeighted_one _ img
    (drawCircleRows_shape (truncZ k.x) (truncZ k.y) radius c img 0)
    (drawCircleRows_inRange (truncZ k.x) (truncZ k.y) radius c hc img 0 hin)

/-- C7 witness: a concrete `1 x 2` buffer, a keypoint of score `1` and an
in-range color render identically along both paths. -/
theorem weighted_full_confidence_eq_unweighted_witness :
    drawKptWeighted [[Color.mk 10 20 30, Color.mk 0 0 0]] (Kpt2D.mk 0 0 1)
        (Color.mk 255 128 64) 1 =
      drawKptUnweighted [[Color.mk 10 20 30, Color.mk 0 0 0]] (Kpt2D.mk 0 0 1)
        (Color.mk 255 128 64) 1 :=
  weighted_full_confidence_eq_unweighted [[Color.mk 10 20 30, Color.mk 0 0 0]]
    (Kpt2D.mk 0 0 1) (Color.mk 255 128 64) 1 rfl (by decide) (by decide)

end MMPose
